import Mathlib

/-!
Verification of the ignis-backend admission-control and webhook-delivery core.

The Go sources are shallowly embedded: pure helpers become Lean functions,
stateful services pass their state explicitly, machine integers are `Nat`/`Int`
with explicit reduction modulo `2 ^ 32` where the code wraps, and external
collaborators (Redis sorted sets, the x/time/rate token bucket, GORM's
soft-delete scope, Go's crypto primitives) are embedded from their documented
semantics, which is what the code relies on.
-/

namespace Ignis

/-! ## Bytes, 32-bit words, SHA-256, HMAC-SHA256, hex

Bytes are `Nat` values below 256; 32-bit words are `Nat` values reduced
modulo `2 ^ 32` after every arithmetic step.  `sha256` follows FIPS 180-4,
which is the function Go's `crypto/sha256` computes; `hmacSha256` follows
FIPS 198-1, which is what `crypto/hmac` computes. -/

/-- Reduce a value to a 32-bit word. -/
def w32 (x : Nat) : Nat := x % 4294967296

/-- Right rotation of a 32-bit word by `n` places. -/
def rotr32 (x n : Nat) : Nat := w32 ((x >>> n) ||| (x <<< (32 - n)))

/-- SHA-256 choice function. -/
def shaCh (x y z : Nat) : Nat := (x &&& y) ^^^ ((x ^^^ 4294967295) &&& z)

/-- SHA-256 majority function. -/
def shaMaj (x y z : Nat) : Nat := (x &&& y) ^^^ (x &&& z) ^^^ (y &&& z)

/-- SHA-256 big sigma 0. -/
def shaS0 (x : Nat) : Nat := rotr32 x 2 ^^^ rotr32 x 13 ^^^ rotr32 x 22

/-- SHA-256 big sigma 1. -/
def shaS1 (x : Nat) : Nat := rotr32 x 6 ^^^ rotr32 x 11 ^^^ rotr32 x 25

/-- SHA-256 small sigma 0. -/
def shaG0 (x : Nat) : Nat := rotr32 x 7 ^^^ rotr32 x 18 ^^^ (x >>> 3)

/-- SHA-256 small sigma 1. -/
def shaG1 (x : Nat) : Nat := rotr32 x 17 ^^^ rotr32 x 19 ^^^ (x >>> 10)

/-- The 64 SHA-256 round constants (FIPS 180-4 §4.2.2, in decimal). -/
def shaK : List Nat :=
  [1116352408, 1899447441, 3049323471, 3921009573, 961987163, 1508970993,
   2453635748, 2870763221, 3624381080, 310598401, 607225278, 1426881987,
   1925078388, 2162078206, 2614888103, 3248222580, 3835390401, 4022224774,
   264347078, 604807628, 770255983, 1249150122, 1555081692, 1996064986,
   2554220882, 2821834349, 2952996808, 3210313671, 3336571891, 3584528711,
   113926993, 338241895, 666307205, 773529912, 1294757372, 1396182291,
   1695183700, 1986661051, 2177026350, 2456956037, 2730485921, 2820302411,
   3259730800, 3345764771, 3516065817, 3600352804, 4094571909, 275423344,
   430227734, 506948616, 659060556, 883997877, 958139571, 1322822218,
   1537002063, 1747873779, 1955562222, 2024104815, 2227730452, 2361852424,
   2428436474, 2756734187, 3204031479, 3329325298]

/-- The eight-word SHA-256 working state. -/
structure Hash8 where
  a : Nat
  b : Nat
  c : Nat
  d : Nat
  e : Nat
  f : Nat
  g : Nat
  h : Nat
deriving Repr, DecidableEq

/-- The SHA-256 initial hash value (FIPS 180-4 §5.3.3, in decimal). -/
def shaInit : Hash8 :=
  ⟨1779033703, 3144134277, 1013904242, 2773480762,
   1359893119, 2600822924, 528734635, 1541459225⟩

/-- Interpret a byte list as big-endian 32-bit words (four bytes per word). -/
def beWords : List Nat → List Nat
  | b0 :: b1 :: b2 :: b3 :: rest =>
      (((b0 <<< 8 ||| b1) <<< 8 ||| b2) <<< 8 ||| b3) :: beWords rest
  | _ => []

/-- Extend the 16-word message schedule by `n` further words. -/
def extendW : Nat → List Nat → List Nat
  | 0, ws => ws
  | n + 1, ws =>
      let t := ws.length
      let next := w32 (shaG1 (ws.getD (t - 2) 0) + ws.getD (t - 7) 0 +
        shaG0 (ws.getD (t - 15) 0) + ws.getD (t - 16) 0)
      extendW n (ws ++ [next])

/-- One SHA-256 compression round, consuming a (round constant, schedule word) pair. -/
def shaRound (s : Hash8) (kw : Nat × Nat) : Hash8 :=
  let t1 := w32 (s.h + shaS1 s.e + shaCh s.e s.f s.g + kw.1 + kw.2)
  let t2 := w32 (shaS0 s.a + shaMaj s.a s.b s.c)
  ⟨w32 (t1 + t2), s.a, s.b, s.c, w32 (s.d + t1), s.e, s.f, s.g⟩

/-- Compress one 64-byte block into the state. -/
def shaCompress (s : Hash8) (block : List Nat) : Hash8 :=
  let ws := extendW 48 (beWords block)
  let r := (shaK.zip ws).foldl shaRound s
  ⟨w32 (s.a + r.a), w32 (s.b + r.b), w32 (s.c + r.c), w32 (s.d + r.d),
   w32 (s.e + r.e), w32 (s.f + r.f), w32 (s.g + r.g), w32 (s.h + r.h)⟩

/-- Big-endian 8-byte encoding of a 64-bit length field. -/
def be64Bytes (n : Nat) : List Nat :=
  [(n >>> 56) % 256, (n >>> 48) % 256, (n >>> 40) % 256, (n >>> 32) % 256,
   (n >>> 24) % 256, (n >>> 16) % 256, (n >>> 8) % 256, n % 256]

/-- SHA-256 padding: append 0x80, zero bytes to 56 mod 64, then the bit length. -/
def shaPad (msg : List Nat) : List Nat :=
  msg ++ 128 :: List.replicate ((119 - msg.length % 64) % 64) 0 ++ be64Bytes (8 * msg.length)

/-- Split a byte list into 64-byte chunks (fuel-based so it reduces in the kernel). -/
def chunksGo : Nat → List Nat → List (List Nat)
  | 0, _ => []
  | _, [] => []
  | fuel + 1, l => l.take 64 :: chunksGo fuel (l.drop 64)

/-- Split a byte list into 64-byte chunks. -/
def chunks64 (l : List Nat) : List (List Nat) := chunksGo l.length l

/-- Big-endian 4-byte encoding of a 32-bit word. -/
def wordBytes (x : Nat) : List Nat :=
  [(x >>> 24) % 256, (x >>> 16) % 256, (x >>> 8) % 256, x % 256]

/-- Serialize the final state to the 32-byte digest. -/
def digestBytes (s : Hash8) : List Nat :=
  wordBytes s.a ++ wordBytes s.b ++ wordBytes s.c ++ wordBytes s.d ++
  wordBytes s.e ++ wordBytes s.f ++ wordBytes s.g ++ wordBytes s.h

/-- SHA-256 of a byte list (FIPS 180-4), as computed by Go's crypto/sha256. -/
def sha256 (msg : List Nat) : List Nat :=
  digestBytes ((chunks64 (shaPad msg)).foldl shaCompress shaInit)

/-- HMAC key normalization: hash long keys, then zero-pad to the 64-byte block size. -/
def hmacPadKey (key : List Nat) : List Nat :=
  let k0 := if 64 < key.length then sha256 key else key
  k0 ++ List.replicate (64 - k0.length) 0

/-- HMAC-SHA256 (FIPS 198-1), as computed by Go's crypto/hmac with crypto/sha256. -/
def hmacSha256 (key msg : List Nat) : List Nat :=
  let k0 := hmacPadKey key
  sha256 ((k0.map (fun b => b ^^^ 92)) ++ sha256 ((k0.map (fun b => b ^^^ 54)) ++ msg))

/-- Lowercase hexadecimal digit for a value below 16, as Go's encoding/hex uses. -/
def hexDigitChar (n : Nat) : Char := Char.ofNat (if n < 10 then 48 + n else 87 + n)

/-- Two lowercase hex characters per byte, most significant nibble first. -/
def hexChars : List Nat → List Char
  | [] => []
  | b :: rest => hexDigitChar (b / 16) :: hexDigitChar (b % 16) :: hexChars rest

/-- Lowercase hex encoding of a byte list (Go's hex.EncodeToString). -/
def hexOfBytes (l : List Nat) : String := String.mk (hexChars l)

/-- UTF-8 encoding of one character, as Go's string-to-byte conversion produces. -/
def utf8Char (c : Char) : List Nat :=
  let n := c.toNat
  if n < 128 then [n]
  else if n < 2048 then [192 ||| (n >>> 6), 128 ||| (n &&& 63)]
  else if n < 65536 then
    [224 ||| (n >>> 12), 128 ||| ((n >>> 6) &&& 63), 128 ||| (n &&& 63)]
  else
    [240 ||| (n >>> 18), 128 ||| ((n >>> 12) &&& 63), 128 ||| ((n >>> 6) &&& 63),
     128 ||| (n &&& 63)]

/-- UTF-8 bytes of a string, Go's []byte(s). -/
def strBytes (s : String) : List Nat :=
  s.data.foldr (fun c acc => utf8Char c ++ acc) []

set_option maxRecDepth 100000 in
example : hexOfBytes (sha256 []) =
    "e3b0c44298fc1c149afbf4c8996fb92427ae41e4649b934ca495991b7852b855" := by decide

set_option maxRecDepth 100000 in
example : hexOfBytes (sha256 (strBytes "abc")) =
    "ba7816bf8f01cfea414140de5dae2223b00361a396177a9cb410ff61f20015ad" := by decide

/-! ## Rate limiter (src/internal/services/rate_limiter.service.go)

Coordinated strategy: the Lua script run by `allowRedis` operates on one
Redis sorted set per key.  Because every inserted member equals its score
(`ZADD key now now`), the set is embedded as a list of `Int` timestamps
(UnixNano values) together with the key's expiry; the three Redis commands
the script issues are embedded from their documented semantics. -/

/-- Redis ZREMRANGEBYSCORE key -inf maxScore: removes every member whose score
lies in the closed interval, i.e. every timestamp less than or equal to
`maxScore`; the members kept are exactly those strictly above it. -/
def zremrangebyscore (ts : List Int) (maxScore : Int) : List Int :=
  ts.filter (fun t => decide (maxScore < t))

/-- Redis ZCARD: the number of members of the sorted set. -/
def zcard (ts : List Int) : Nat := ts.length

/-- Redis ZADD key now now: inserts `now` as member (scored by itself); adding
a member that is already present leaves the set unchanged. -/
def zadd (ts : List Int) (now : Int) : List Int :=
  if now ∈ ts then ts else now :: ts

/-- The per-key Redis state: the sorted-set timestamps and the key's expiry
(seconds to live, set by EXPIRE). -/
structure RedisKey where
  ts : List Int
  ttl : Option Int
deriving Repr, DecidableEq

/-- The Lua script executed atomically by `allowRedis` (rate_limiter.service.go
lines 92-113): evict scores up to `now - window` inclusive, count the rest as
`current`, and if `current < limit` insert `now`, refresh the expiry to 3600
seconds and report `(allowed, limit - current - 1)`, else report `(denied, 0)`. -/
def allowRedisLua (st : RedisKey) (limit window now : Int) : (Bool × Int) × RedisKey :=
  let wStart := now - window
  let kept := zremrangebyscore st.ts wStart
  let current : Int := (zcard kept : Int)
  if current < limit then
    ((true, limit - current - 1), ⟨zadd kept now, some 3600⟩)
  else
    ((false, 0), ⟨kept, st.ttl⟩)

/-- The whole coordinated backend: one `RedisKey` per key string. -/
def RedisStore : Type := String → RedisKey

/-- The empty backend: every key holds the empty sorted set and no expiry. -/
def emptyRedisStore : RedisStore := fun _ => ⟨[], none⟩

/-- Run one coordinated `Allow(key, limit, window)` call at time `now`,
returning the updated backend (the decision is discarded here; claims about
the decision use `allowRedisLua` directly). -/
def runRedisAllow (limit window : Int) (store : RedisStore) (call : String × Int) :
    RedisStore :=
  let r := allowRedisLua (store call.1) limit window call.2
  fun k => if k = call.1 then r.2 else store k

/-- Run a sequence of coordinated `Allow` calls, each given as (key, now),
starting from the empty backend.  The Lua script executes atomically per call,
so any concurrent execution is some such sequence. -/
def runRedisCalls (limit window : Int) (calls : List (String × Int)) : RedisStore :=
  calls.foldl (runRedisAllow limit window) emptyRedisStore

/-- The number of retained timestamps newer than `wStart` (the admissions that
fall inside the window that starts at `wStart`). -/
def windowCount (ts : List Int) (wStart : Int) : Nat :=
  (ts.filter (fun t => decide (wStart < t))).length

/-! Local strategy: `InMemoryRateLimiter` keeps one golang.org/x/time/rate
token bucket per key.  The library is an external dependency.
Modelled from the spec: §4.3 describes the bucket as created at full burst
capacity `limit`, with `Allow` consuming one token if available and denying
otherwise; refill over elapsed time is not consulted by any claim proved here
(no claim advances the clock between local calls), so the bucket carries its
refill interval but the embedding never applies refill. -/

/-- Go integer division (`window / time.Duration(limit)`), which panics when
the divisor is zero; `none` embeds the panic. -/
def goQuo (a b : Int) : Option Int :=
  if b = 0 then none else some (Int.tdiv a b)

/-- An x/time/rate token bucket: refill interval (rate.Every argument, in
nanoseconds), burst capacity, and current token count. -/
structure TokenBucket where
  intervalNs : Int
  burst : Int
  tokens : Int
deriving Repr, DecidableEq

/-- Modelled from the spec: rate.NewLimiter starts the bucket at full burst
capacity (§4.3: Reset deletes the bucket, "causing the next call to recreate
it at full capacity"). -/
def newTokenBucket (intervalNs burst : Int) : TokenBucket :=
  ⟨intervalNs, burst, burst⟩

/-- Modelled from the spec: limiter.Allow consumes one token if available,
else denies (§4.3). -/
def bucketAllow (b : TokenBucket) : Bool × TokenBucket :=
  if 1 ≤ b.tokens then (true, { b with tokens := b.tokens - 1 }) else (false, b)

/-- The guarded bucket mapping of `InMemoryRateLimiter`. -/
def MemStore : Type := String → Option TokenBucket

/-- InMemoryRateLimiter.Allow (lines 139-151): look the key up; on a miss,
create `rate.NewLimiter(rate.Every(window / time.Duration(limit)), limit)` —
a Go division that panics when `limit = 0`, embedded as `none` — and in
either case consume one token from the key's bucket. -/
def inMemoryAllow (m : MemStore) (key : String) (limit windowNs : Int) :
    Option (Bool × MemStore) :=
  match m key with
  | some b =>
      let r := bucketAllow b
      some (r.1, fun k => if k = key then some r.2 else m k)
  | none =>
      match goQuo windowNs limit with
      | none => none
      | some iv =>
          let r := bucketAllow (newTokenBucket iv limit)
          some (r.1, fun k => if k = key then some r.2 else m k)

/-- InMemoryRateLimiter.Reset (lines 154-158): delete the key's bucket. -/
def inMemoryReset (m : MemStore) (key : String) : MemStore :=
  fun k => if k = key then none else m k

/-- RateLimiterService: the facade holding the one-time strategy choice and
both stores. -/
structure RateLimiterService where
  useRedis : Bool
  redis : RedisStore
  mem : MemStore

/-- RateLimiterService.Allow (lines 78-126).  `redisErr` is the oracle for
whether the backend scripted call fails at call time; on such a failure the
code logs and returns the in-memory decision with a nil error.  The in-memory
path's possible division panic propagates as `none`; otherwise the result is
((allowed, error), updated service) with the error component always nil. -/
def serviceAllow (svc : RateLimiterService) (redisErr : Bool) (key : String)
    (limit windowNs now : Int) :
    Option ((Bool × Option String) × RateLimiterService) :=
  if svc.useRedis then
    if redisErr then
      match inMemoryAllow svc.mem key limit windowNs with
      | none => none
      | some (d, m2) => some ((d, none), { svc with mem := m2 })
    else
      let r := allowRedisLua (svc.redis key) limit windowNs now
      some ((r.1.1, none), { svc with redis := fun k => if k = key then r.2 else svc.redis k })
  else
    match inMemoryAllow svc.mem key limit windowNs with
    | none => none
    | some (d, m2) => some ((d, none), { svc with mem := m2 })

/-- RateLimiterService.Reset (lines 129-136): under Redis, DEL the key (the
key then holds the empty set and no expiry); otherwise delete the local
bucket. -/
def serviceReset (svc : RateLimiterService) (key : String) : RateLimiterService :=
  if svc.useRedis then
    { svc with redis := fun k => if k = key then ⟨[], none⟩ else svc.redis k }
  else
    { svc with mem := inMemoryReset svc.mem key }

/-! Key fingerprinting (lines 170-192).  Go's `hex.EncodeToString(...)[:16]`
slices the first 16 bytes of an ASCII hex string, i.e. its first 16
characters, embedded as `List.take 16` on the character list. -/

/-- GenerateRateLimitKey: hash "userType:identifier:endpoint", keep the first
16 hex characters, and build "rate_limit:userType:hash". -/
def GenerateRateLimitKey (userType identifier endpoint : String) : String :=
  let hash := (hexChars (sha256 (strBytes (userType ++ ":" ++ identifier ++ ":" ++ endpoint)))).take 16
  "rate_limit:" ++ userType ++ ":" ++ String.mk hash

/-- GetUserRateLimitKey (lines 180-182). -/
def GetUserRateLimitKey (clerkUserID endpoint : String) : String :=
  GenerateRateLimitKey "user" clerkUserID endpoint

/-- GetAPIKeyRateLimitKey (lines 185-187). -/
def GetAPIKeyRateLimitKey (apiKeyID endpoint : String) : String :=
  GenerateRateLimitKey "api" apiKeyID endpoint

/-- GetGlobalRateLimitKey (lines 190-192). -/
def GetGlobalRateLimitKey (endpoint : String) : String :=
  GenerateRateLimitKey "global" "all" endpoint

/-! ## Webhook service (webhook.service.go, src/unnamed/part_002)

A `Webhook` row mirrors the GORM model: event kinds are strings (the two
constants are "job.completed" and "job.failed"), the shared secret is carried
as its bytes (Go converts the secret string to bytes before keying the HMAC),
and `deleted` embeds a non-null gorm.DeletedAt.  GORM's default scope, which
every query in db.service.go uses, excludes soft-deleted rows. -/

/-- A webhook subscription row. -/
structure Webhook where
  id : Nat
  url : String
  secret : List Nat
  events : List String
  isActive : Bool
  clerkUserID : String
  deleted : Bool
deriving Repr, DecidableEq

/-- A webhook_events audit row (delivery attempt record). -/
structure WebhookEventRec where
  webhookID : Nat
  eventType : String
  jobID : String
  payload : List Nat
  delivered : Bool
  statusCode : Int
  response : String
  attemptCount : Nat
  nextRetryAt : Option Int
deriving Repr, DecidableEq

/-- The record `sendWebhookEventAsync` creates before delivery (lines 188-210):
attempt count 0, not delivered, no next retry scheduled. -/
def mkWebhookEvent (webhookID : Nat) (eventType jobID : String) (payload : List Nat) :
    WebhookEventRec :=
  ⟨webhookID, eventType, jobID, payload, false, 0, "", 0, none⟩

/-- FindWhere "clerk_user_id = ? AND is_active = ?" with user and true
(line 146), under GORM's default scope which also excludes soft-deleted rows. -/
def findActiveWebhooks (db : List Webhook) (user : String) : List Webhook :=
  db.filter (fun w => !w.deleted && w.clerkUserID == user && w.isActive)

/-- The event-type filter loop of SendWebhookEvent (lines 153-161): keep a
webhook when some entry of its event list equals the event type (the inner
loop breaks at the first match). -/
def subscribedWebhooks (ws : List Webhook) (eventType : String) : List Webhook :=
  ws.filter (fun w => w.events.any (fun e => e == eventType))

/-- SendWebhookEvent (lines 143-185): fetch the owner's active subscriptions,
filter by event type, and create one delivery record per match (each spawned
goroutine creates its record via `mkWebhookEvent` before attempting delivery);
when nothing matches it returns with no record created.  The records created
are returned. -/
def sendWebhookEvent (db : List Webhook) (user eventType jobID : String)
    (payload : List Nat) : List WebhookEventRec :=
  let subs := subscribedWebhooks (findActiveWebhooks db user) eventType
  subs.map (fun w => mkWebhookEvent w.id eventType jobID payload)

/-- generateHMACSignature (lines 316-321): lowercase hex of the HMAC-SHA256 of
the payload keyed by the secret bytes. -/
def generateHMACSignature (payload secret : List Nat) : String :=
  hexOfBytes (hmacSha256 secret payload)

/-- http.Header.Set: replace the value of an existing header of that name,
else append it. -/
def setHeader (hs : List (String × String)) (k v : String) : List (String × String) :=
  if hs.any (fun p => p.1 == k) then
    hs.map (fun p => if p.1 == k then (k, v) else p)
  else hs ++ [(k, v)]

/-- An outbound HTTP request. -/
structure HttpRequest where
  method : String
  url : String
  headers : List (String × String)
  body : List Nat
deriving Repr, DecidableEq

/-- The request built on each attempt of sendWebhookWithRetries (lines
225-241): POST to the subscription URL with the serialized payload as body,
the four standard headers, and — only when a secret is configured — the
"sha256="-prefixed HMAC signature header over those same payload bytes. -/
def buildWebhookRequest (w : Webhook) (ev : WebhookEventRec) (payloadBytes : List Nat) :
    HttpRequest :=
  let h0 := setHeader [] "Content-Type" "application/json"
  let h1 := setHeader h0 "User-Agent" "Ignis-Webhooks/1.0"
  let h2 := setHeader h1 "X-Webhook-Event" ev.eventType
  let h3 := setHeader h2 "X-Webhook-Delivery" (toString ev.webhookID)
  let h4 := if w.secret = [] then h3
    else setHeader h3 "X-Webhook-Signature" ("sha256=" ++ generateHMACSignature payloadBytes w.secret)
  ⟨"POST", w.url, h4, payloadBytes⟩

/-- Look a header up by name. -/
def headerValue (r : HttpRequest) (name : String) : Option String :=
  (r.headers.find? (fun p => p.1 == name)).map (fun p => p.2)

/-- What the endpoint does on one delivery attempt: a transport error, or an
HTTP response with a status code and body. -/
inductive AttemptOutcome where
  | transportError (msg : String)
  | httpResponse (status : Int) (body : String)
deriving Repr, DecidableEq

/-- Whether an outcome is a success response (status in [200, 300)). -/
def is2xxOutcome : AttemptOutcome → Bool
  | .httpResponse s _ => decide (200 ≤ s ∧ s < 300)
  | .transportError _ => false

/-- Whether an outcome is an HTTP response with a non-2xx status. -/
def isFailStatus : AttemptOutcome → Bool
  | .httpResponse s _ => !decide (200 ≤ s ∧ s < 300)
  | .transportError _ => false

/-- The retry loop body of sendWebhookWithRetries (lines 221-303), indexed by
the attempt counter and the remaining iterations of `for attempt := 0;
attempt < maxRetries; attempt++`.  Each iteration first sets the record's
attempt count to attempt+1; a transport error stores the error text and
retries; a response stores status and body, marks the record delivered and
stops on a 2xx status, and otherwise retries.  When the loop ends without a
success, lines 305-308 schedule one deferred retry an hour after the time
`tEnd` at which the loop finished (times in seconds). -/
def sendLoop (outcomes : Nat → AttemptOutcome) (tEnd : Int) :
    Nat → Nat → WebhookEventRec → WebhookEventRec
  | _, 0, ev => { ev with nextRetryAt := some (tEnd + 3600) }
  | attempt, fuel + 1, ev =>
      let ev1 := { ev with attemptCount := attempt + 1 }
      match outcomes attempt with
      | .transportError msg =>
          sendLoop outcomes tEnd (attempt + 1) fuel { ev1 with response := msg }
      | .httpResponse status body =>
          let ev2 := { ev1 with statusCode := status, response := body }
          if 200 ≤ status ∧ status < 300 then { ev2 with delivered := true }
          else sendLoop outcomes tEnd (attempt + 1) fuel ev2

/-- sendWebhookWithRetries (lines 217-314): maxRetries = 3 attempts. -/
def sendWebhookWithRetries (outcomes : Nat → AttemptOutcome) (tEnd : Int)
    (ev : WebhookEventRec) : WebhookEventRec :=
  sendLoop outcomes tEnd 0 3 ev

/-! ## Job status updates (src/internal/services/job.service.go) -/

/-- A jobs row (the fields updateJobStatus touches). -/
structure Job where
  jobID : String
  language : String
  code : String
  status : String
  message : String
  error : String
  stdErr : String
  stdOut : String
  execDuration : Int
  memUsage : Int
  clerkUserID : String
deriving Repr, DecidableEq

/-- A job status update consumed from the worker bus. -/
structure JobStatusUpdate where
  id : String
  status : String
  message : String
  error : String
  stdErr : String
  stdOut : String
  execDuration : Int
  memUsage : Int
deriving Repr, DecidableEq

/-- The status switch of updateJobStatus (lines 209-221): the four recognized
worker statuses map to the stored JobStatus values ("done" maps to
"completed"); anything else is an unknown-status error. -/
def parseWorkerStatus (s : String) : Option String :=
  if s = "received" then some "received"
  else if s = "running" then some "running"
  else if s = "done" then some "completed"
  else if s = "failed" then some "failed"
  else none

/-- updateJobStatus (lines 201-263): find the job row by job_id; map the
status string, failing on unknown values before anything is written; update
every job field and save the row; finally dispatch a webhook event when the
new status is terminal.  Returns (error, resulting rows, dispatched events as
(event kind, job id) pairs); on any error the rows are returned untouched and
no event is dispatched. -/
def updateJobStatus (db : List Job) (upd : JobStatusUpdate) :
    Option String × List Job × List (String × String) :=
  match db.find? (fun j => j.jobID == upd.id) with
  | none => (some "job not found", db, [])
  | some job =>
      match parseWorkerStatus upd.status with
      | none => (some ("unknown status: " ++ upd.status), db, [])
      | some st =>
          let j2 : Job := { job with
            status := st, message := upd.message, error := upd.error,
            stdErr := upd.stdErr, stdOut := upd.stdOut,
            execDuration := upd.execDuration, memUsage := upd.memUsage }
          let db2 := db.map (fun j => if j.jobID == upd.id then j2 else j)
          let events :=
            if st = "completed" then [("job.completed", job.jobID)]
            else if st = "failed" then [("job.failed", job.jobID)]
            else []
          (none, db2, events)

/-! ## Claim C2: the sliding-window procedure, and its eviction boundary -/

/-- Claim C2's procedure, following the claim's words: evict the timestamps
STRICTLY older than now - window (so a timestamp exactly at the window start
is kept), count the rest, and decide as in the script.  Defined only to be
compared against the source-derived `allowRedisLua`. -/
def slidingWindowStrict (st : RedisKey) (limit window now : Int) : (Bool × Int) × RedisKey :=
  let wStart := now - window
  let kept := st.ts.filter (fun t => decide (wStart ≤ t))
  let current : Int := (kept.length : Int)
  if current < limit then
    ((true, limit - current - 1), ⟨zadd kept now, some 3600⟩)
  else
    ((false, 0), ⟨kept, st.ttl⟩)

/-- Membership after a ZADD. -/
lemma mem_zadd {ts : List Int} {now t : Int} : t ∈ zadd ts now ↔ t ∈ ts ∨ t = now := by
  unfold zadd
  by_cases h : now ∈ ts
  · rw [if_pos h]
    exact ⟨Or.inl, fun hc => hc.elim id (fun e => e ▸ h)⟩
  · rw [if_neg h]
    simp [List.mem_cons, or_comm]

/-- Claim C2 counterexample: with one recorded timestamp exactly at the window
start (store = [0], limit 1, window 10, now 10), the script's inclusive
ZREMRANGEBYSCORE evicts it and admits the call, while the claim's
strictly-older eviction would keep it and deny the call. -/
theorem C2_counterexample :
    (allowRedisLua ⟨[0], none⟩ 1 10 10).1.1 = true ∧
      (slidingWindowStrict ⟨[0], none⟩ 1 10 10).1.1 = false ∧
      (allowRedisLua ⟨[0], none⟩ 1 10 10).2.ts = [10] ∧
      (slidingWindowStrict ⟨[0], none⟩ 1 10 10).2.ts = [0] := by
  refine ⟨rfl, ?_, rfl, ?_⟩ <;> decide

/-- Claim C2 (amended): `allowRedis` evicts every timestamp at most
now - window (the boundary is evicted too), counts the remaining timestamps,
and admits exactly when that count is below the limit, in which case it
records `now`, refreshes the expiry to one hour and reports
limit - current - 1 remaining; otherwise it denies with 0 remaining and the
expiry untouched. -/
theorem C2_sliding_window_log_amended (ts : List Int) (ttl : Option Int)
    (limit window now : Int) :
    (∀ t : Int, t ∈ (allowRedisLua ⟨ts, ttl⟩ limit window now).2.ts ↔
      ((t ∈ ts ∧ now - window < t) ∨ ((windowCount ts (now - window) : Int) < limit ∧ t = now)))
    ∧ ((allowRedisLua ⟨ts, ttl⟩ limit window now).1.1 = true ↔
        (windowCount ts (now - window) : Int) < limit)
    ∧ ((allowRedisLua ⟨ts, ttl⟩ limit window now).1.2 =
        if (windowCount ts (now - window) : Int) < limit then
          limit - (windowCount ts (now - window) : Int) - 1 else 0)
    ∧ ((allowRedisLua ⟨ts, ttl⟩ limit window now).2.ttl =
        if (windowCount ts (now - window) : Int) < limit then some 3600 else ttl) := by
  have hval : allowRedisLua ⟨ts, ttl⟩ limit window now =
      (if (windowCount ts (now - window) : Int) < limit then
        ((true, limit - (windowCount ts (now - window) : Int) - 1),
          ⟨zadd (zremrangebyscore ts (now - window)) now, some 3600⟩)
      else ((false, 0), ⟨zremrangebyscore ts (now - window), ttl⟩)) := rfl
  rw [hval]
  by_cases h : (windowCount ts (now - window) : Int) < limit
  · rw [if_pos h]
    refine ⟨?_, by simp [h], by simp [h], by simp [h]⟩
    intro t
    show t ∈ zadd (zremrangebyscore ts (now - window)) now ↔ _
    rw [mem_zadd]
    simp only [zremrangebyscore, List.mem_filter, decide_eq_true_eq]
    tauto
  · rw [if_neg h]
    refine ⟨?_, by simp [h], by simp [h], by simp [h]⟩
    intro t
    show t ∈ zremrangebyscore ts (now - window) ↔ _
    simp only [zremrangebyscore, List.mem_filter, decide_eq_true_eq]
    tauto

/-! ## Claim C1: the coordinated window bound -/

/-- One coordinated call never grows a key's sorted set beyond the limit. -/
lemma allowRedisLua_length_le (st : RedisKey) (limit window now : Int)
    (h : (st.ts.length : Int) ≤ limit) :
    (((allowRedisLua st limit window now).2.ts.length : Int) ≤ limit) := by
  unfold allowRedisLua
  have hkle : (zremrangebyscore st.ts (now - window)).length ≤ st.ts.length :=
    List.length_filter_le _ _
  by_cases hlt : ((zcard (zremrangebyscore st.ts (now - window)) : Nat) : Int) < limit
  · rw [if_pos hlt]
    have hz : (zadd (zremrangebyscore st.ts (now - window)) now).length ≤
        (zremrangebyscore st.ts (now - window)).length + 1 := by
      unfold zadd
      by_cases hm : now ∈ zremrangebyscore st.ts (now - window)
      · rw [if_pos hm]; exact Nat.le_succ _
      · rw [if_neg hm]; simp
    calc ((zadd (zremrangebyscore st.ts (now - window)) now).length : Int)
        ≤ ((zremrangebyscore st.ts (now - window)).length : Int) + 1 := by exact_mod_cast hz
      _ ≤ limit := by
          have : ((zremrangebyscore st.ts (now - window)).length : Int) + 1 ≤ limit := by
            exact Int.add_one_le_iff.mpr hlt
          exact this
  · rw [if_neg hlt]
    calc ((zremrangebyscore st.ts (now - window)).length : Int)
        ≤ (st.ts.length : Int) := by exact_mod_cast hkle
      _ ≤ limit := h

/-- The per-key set-size invariant is preserved along any call sequence. -/
lemma runRedis_foldl_length_le (limit window : Int) :
    ∀ (calls : List (String × Int)) (store : RedisStore),
      (∀ k, ((store k).ts.length : Int) ≤ limit) →
      ∀ k, (((calls.foldl (runRedisAllow limit window) store) k).ts.length : Int) ≤ limit := by
  intro calls
  induction calls with
  | nil => intro store h k; exact h k
  | cons c rest ih =>
      intro store h k
      refine ih _ ?_ k
      intro k2
      unfold runRedisAllow
      by_cases hk : k2 = c.1
      · simp only [hk, if_pos rfl]
        exact allowRedisLua_length_le _ _ _ _ (h c.1)
      · simp only [if_neg hk]
        exact h k2

/-- Claim C1: starting from an empty backend, after any sequence of
coordinated Allow calls (each an atomic Lua execution, so any concurrent
interleaving is such a sequence) and for any key and observation time, the
number of retained timestamps newer than the window start is at most the
limit.  Since the call list is universally quantified, the bound holds at
every point of every sequence. -/
theorem C1_coordinated_window_bound (calls : List (String × Int)) (limit window : Int)
    (key : String) (obsNow : Int) (hlim : 0 ≤ limit) :
    ((windowCount ((runRedisCalls limit window calls) key).ts (obsNow - window) : Int) ≤ limit) := by
  have hlen : ((((runRedisCalls limit window calls) key).ts.length : Nat) : Int) ≤ limit := by
    refine runRedis_foldl_length_le limit window calls emptyRedisStore ?_ key
    intro k
    simpa [emptyRedisStore] using hlim
  have hsub : windowCount ((runRedisCalls limit window calls) key).ts (obsNow - window) ≤
      ((runRedisCalls limit window calls) key).ts.length :=
    List.length_filter_le _ _
  calc ((windowCount ((runRedisCalls limit window calls) key).ts (obsNow - window) : Nat) : Int)
      ≤ ((((runRedisCalls limit window calls) key).ts.length : Nat) : Int) := by exact_mod_cast hsub
    _ ≤ limit := hlen

/-- Claim C1 witness: limit 2, window 100, three calls on key "k"; only two
timestamps are retained and the window count is within the limit. -/
theorem C1_coordinated_window_bound_witness :
    ((0 : Int) ≤ 2)
    ∧ ((windowCount ((runRedisCalls 2 100 [("k", 5), ("k", 6), ("k", 7)]) "k").ts (7 - 100) : Int) ≤ 2)
    ∧ ((runRedisCalls 2 100 [("k", 5), ("k", 6), ("k", 7)]) "k").ts = [6, 5] :=
  ⟨by decide,
   C1_coordinated_window_bound [("k", 5), ("k", 6), ("k", 7)] 2 100 "k" 7 (by decide),
   by decide⟩

/-! ## Claim C6: Reset followed by Allow admits -/

/-- Claim C6: under either strategy, Reset(key) followed immediately by
Allow(key, limit, window) with limit at least 1 admits the request (the
coordinated call is taken on its normal path, Redis reachable). -/
theorem C6_reset_then_allow (svc : RateLimiterService) (key : String)
    (limit windowNs now : Int) (hlim : 1 ≤ limit) :
    (serviceAllow (serviceReset svc key) false key limit windowNs now).map (fun r => r.1) =
      some (true, none) := by
  have h0 : (0 : Int) < limit := lt_of_lt_of_le one_pos hlim
  by_cases hR : svc.useRedis = true
  · simp [serviceReset, serviceAllow, hR, allowRedisLua, zremrangebyscore, zcard, h0]
  · have hR2 : svc.useRedis = false := by
      cases hB : svc.useRedis
      · rfl
      · exact absurd hB hR
    simp [serviceReset, serviceAllow, hR2, inMemoryAllow, inMemoryReset, goQuo,
      h0.ne', bucketAllow, newTokenBucket, hlim]

/-- Claim C6 witness: both strategy choices, key "k", limit 1. -/
theorem C6_reset_then_allow_witness :
    ((1 : Int) ≤ 1)
    ∧ ((serviceAllow (serviceReset ⟨true, emptyRedisStore, fun _ => none⟩ "k") false
        "k" 1 1000000000 5).map (fun r => r.1) = some (true, none))
    ∧ ((serviceAllow (serviceReset ⟨false, emptyRedisStore, fun _ => none⟩ "k") false
        "k" 1 1000000000 5).map (fun r => r.1) = some (true, none)) :=
  ⟨by decide,
   C6_reset_then_allow ⟨true, emptyRedisStore, fun _ => none⟩ "k" 1 1000000000 5 (by decide),
   C6_reset_then_allow ⟨false, emptyRedisStore, fun _ => none⟩ "k" 1 1000000000 5 (by decide)⟩

/-! ## Claim C9: per-call degradation to the local strategy -/

/-- Claim C9: in coordinated mode, when the scripted backend call fails, the
Allow call returns exactly the local limiter's decision for the same key,
limit and window, with a nil error, and the returned service is still in
coordinated mode (the decision, error and mode are compared through the
possible local-path division panic, which propagates unchanged). -/
theorem C9_redis_error_fallback (svc : RateLimiterService) (key : String)
    (limit windowNs now : Int) (hRedis : svc.useRedis = true) :
    ((serviceAllow svc true key limit windowNs now).map (fun r => r.1) =
      (inMemoryAllow svc.mem key limit windowNs).map (fun p => (p.1, (none : Option String))))
    ∧ ((serviceAllow svc true key limit windowNs now).map (fun r => r.2.useRedis) =
      (inMemoryAllow svc.mem key limit windowNs).map (fun _ => true)) := by
  constructor <;>
    · simp only [serviceAllow, hRedis, if_true]
      cases h : inMemoryAllow svc.mem key limit windowNs with
      | none => simp
      | some p =>
          cases p with
          | mk d m2 => simp [hRedis]

/-- Claim C9 witness: coordinated service whose backend call fails; the local
bucket admits and the service stays coordinated. -/
theorem C9_redis_error_fallback_witness :
    ((⟨true, emptyRedisStore, fun _ => none⟩ : RateLimiterService).useRedis = true)
    ∧ (((serviceAllow ⟨true, emptyRedisStore, fun _ => none⟩ true "k" 1 1000000000 5).map
          (fun r => r.1) =
        (inMemoryAllow (fun _ => none) "k" 1 1000000000).map
          (fun p => (p.1, (none : Option String))))
      ∧ ((serviceAllow ⟨true, emptyRedisStore, fun _ => none⟩ true "k" 1 1000000000 5).map
          (fun r => r.2.useRedis) =
        (inMemoryAllow (fun _ => none) "k" 1 1000000000).map (fun _ => true)))
    ∧ ((inMemoryAllow (fun _ => none) "k" 1 1000000000).map (fun p => p.1) = some true) :=
  ⟨rfl,
   C9_redis_error_fallback ⟨true, emptyRedisStore, fun _ => none⟩ "k" 1 1000000000 5 rfl,
   rfl⟩

/-! ## Claim C10: the local strategy with limit 0 -/

/-- Claim C10: a local-strategy Allow with limit 0 on a key with no existing
bucket panics (the bucket creation divides the window by the limit), embedded
as the undefined `none` result — the call neither allows nor denies. -/
theorem C10_local_zero_limit_panics (m : MemStore) (key : String) (windowNs : Int)
    (hfresh : m key = none) :
    inMemoryAllow m key 0 windowNs = none := by
  simp [inMemoryAllow, hfresh, goQuo]

/-- Claim C10 witness: a fresh limiter, any key. -/
theorem C10_local_zero_limit_panics_witness :
    ((fun _ => none : MemStore) "k" = none)
    ∧ inMemoryAllow (fun _ => none) "k" 0 1000000000 = none :=
  ⟨rfl, C10_local_zero_limit_panics (fun _ => none) "k" 1000000000 rfl⟩

/-! ## Claim C8: invalid worker statuses are rejected -/

/-- Claim C8: a worker status update whose status is not one of "received",
"running", "done", "failed" makes the update handler return an error, leave
the job rows untouched, and dispatch no webhook event. -/
theorem C8_invalid_status_rejected (db : List Job) (upd : JobStatusUpdate)
    (hbad : upd.status ∉ (["received", "running", "done", "failed"] : List String)) :
    (updateJobStatus db upd).1 ≠ none ∧ (updateJobStatus db upd).2.1 = db ∧
      (updateJobStatus db upd).2.2 = [] := by
  simp only [List.mem_cons, List.not_mem_nil, or_false, not_or] at hbad
  obtain ⟨h1, h2, h3, h4⟩ := hbad
  have hparse : parseWorkerStatus upd.status = none := by
    simp [parseWorkerStatus, h1, h2, h3, h4]
  cases hfind : db.find? (fun j => j.jobID == upd.id) with
  | none => simp [updateJobStatus, hfind]
  | some j => simp [updateJobStatus, hfind, hparse]

/-- Claim C8 witness: a status "exploded" against a one-row table whose job id
matches; the handler errors and changes nothing. -/
theorem C8_invalid_status_rejected_witness :
    (("exploded" : String) ∉ (["received", "running", "done", "failed"] : List String))
    ∧ (((updateJobStatus [⟨"j1", "go", "x", "received", "", "", "", "", 0, 0, "u"⟩]
          ⟨"j1", "exploded", "m", "e", "", "", 1, 2⟩).1 ≠ none)
      ∧ ((updateJobStatus [⟨"j1", "go", "x", "received", "", "", "", "", 0, 0, "u"⟩]
          ⟨"j1", "exploded", "m", "e", "", "", 1, 2⟩).2.1 =
            [⟨"j1", "go", "x", "received", "", "", "", "", 0, 0, "u"⟩])
      ∧ ((updateJobStatus [⟨"j1", "go", "x", "received", "", "", "", "", 0, 0, "u"⟩]
          ⟨"j1", "exploded", "m", "e", "", "", 1, 2⟩).2.2 = [])) :=
  ⟨by decide,
   C8_invalid_status_rejected [⟨"j1", "go", "x", "received", "", "", "", "", 0, 0, "u"⟩]
     ⟨"j1", "exploded", "m", "e", "", "", 1, 2⟩ (by decide)⟩

/-! ## Claim C3: the delivery retry loop -/

/-- An outcome that is an HTTP response with a failing status. -/
lemma failStatus_shape {o : AttemptOutcome} (h : isFailStatus o = true) :
    ∃ s b, o = .httpResponse s b ∧ ¬(200 ≤ s ∧ s < 300) := by
  cases o with
  | transportError m => simp [isFailStatus] at h
  | httpResponse s b =>
      have h2 : (!decide (200 ≤ s ∧ s < 300)) = true := h
      rw [Bool.not_eq_true'] at h2
      exact ⟨s, b, rfl, of_decide_eq_false h2⟩

/-- An outcome that is a success response. -/
lemma success_shape {o : AttemptOutcome} (h : is2xxOutcome o = true) :
    ∃ s b, o = .httpResponse s b ∧ (200 ≤ s ∧ s < 300) := by
  cases o with
  | transportError m => simp [is2xxOutcome] at h
  | httpResponse s b => exact ⟨s, b, rfl, of_decide_eq_true h⟩

/-- Claim C3: when every attempt draws a non-2xx response the loop makes
exactly 3 attempts, leaves the record undelivered with attempt count 3 and
schedules the deferred retry one hour after the loop ends; when the endpoint
first succeeds on attempt n (n at most 3, earlier attempts unsuccessful) the
loop stops there with attempt count n, the record delivered, and no retry
scheduled. -/
theorem C3_retry_loop (f g : Nat → AttemptOutcome) (tEnd tEnd2 : Int) (wid : Nat)
    (et jid : String) (pl : List Nat) (n : Nat)
    (hf : ∀ i, isFailStatus (f i) = true)
    (hn1 : 1 ≤ n) (hn3 : n ≤ 3)
    (hg : ∀ i, i < n - 1 → is2xxOutcome (g i) = false)
    (hgn : is2xxOutcome (g (n - 1)) = true) :
    ((sendWebhookWithRetries f tEnd (mkWebhookEvent wid et jid pl)).attemptCount = 3
      ∧ (sendWebhookWithRetries f tEnd (mkWebhookEvent wid et jid pl)).delivered = false
      ∧ (sendWebhookWithRetries f tEnd (mkWebhookEvent wid et jid pl)).nextRetryAt =
          some (tEnd + 3600))
    ∧ ((sendWebhookWithRetries g tEnd2 (mkWebhookEvent wid et jid pl)).attemptCount = n
      ∧ (sendWebhookWithRetries g tEnd2 (mkWebhookEvent wid et jid pl)).delivered = true
      ∧ (sendWebhookWithRetries g tEnd2 (mkWebhookEvent wid et jid pl)).nextRetryAt = none) := by
  constructor
  · obtain ⟨s0, b0, h0, hs0⟩ := failStatus_shape (hf 0)
    obtain ⟨s1, b1, h1, hs1⟩ := failStatus_shape (hf 1)
    obtain ⟨s2, b2, h2, hs2⟩ := failStatus_shape (hf 2)
    simp [sendWebhookWithRetries, sendLoop, h0, h1, h2, hs0, hs1, hs2, mkWebhookEvent]
  · interval_cases n
    · obtain ⟨s0, b0, h0, hs0⟩ := success_shape hgn
      simp [sendWebhookWithRetries, sendLoop, h0, hs0, mkWebhookEvent]
    · have hf0 : is2xxOutcome (g 0) = false := hg 0 (by decide)
      obtain ⟨s1, b1, h1, hs1⟩ := success_shape hgn
      cases hG0 : g 0 with
      | transportError m =>
          simp [sendWebhookWithRetries, sendLoop, hG0, h1, hs1, mkWebhookEvent]
      | httpResponse s b =>
          rw [hG0] at hf0
          have hns : ¬(200 ≤ s ∧ s < 300) := by simpa [is2xxOutcome] using hf0
          simp [sendWebhookWithRetries, sendLoop, hG0, hns, h1, hs1, mkWebhookEvent]
    · have hf0 : is2xxOutcome (g 0) = false := hg 0 (by decide)
      have hf1 : is2xxOutcome (g 1) = false := hg 1 (by decide)
      obtain ⟨s2, b2, h2, hs2⟩ := success_shape hgn
      cases hG0 : g 0 with
      | transportError m0 =>
          cases hG1 : g 1 with
          | transportError m1 =>
              simp [sendWebhookWithRetries, sendLoop, hG0, hG1, h2, hs2, mkWebhookEvent]
          | httpResponse s1 b1 =>
              rw [hG1] at hf1
              have hns1 : ¬(200 ≤ s1 ∧ s1 < 300) := by simpa [is2xxOutcome] using hf1
              simp [sendWebhookWithRetries, sendLoop, hG0, hG1, hns1, h2, hs2, mkWebhookEvent]
      | httpResponse s0 b0 =>
          rw [hG0] at hf0
          have hns0 : ¬(200 ≤ s0 ∧ s0 < 300) := by simpa [is2xxOutcome] using hf0
          cases hG1 : g 1 with
          | transportError m1 =>
              simp [sendWebhookWithRetries, sendLoop, hG0, hG1, hns0, h2, hs2, mkWebhookEvent]
          | httpResponse s1 b1 =>
              rw [hG1] at hf1
              have hns1 : ¬(200 ≤ s1 ∧ s1 < 300) := by simpa [is2xxOutcome] using hf1
              simp [sendWebhookWithRetries, sendLoop, hG0, hG1, hns0, hns1, h2, hs2,
                mkWebhookEvent]

/-- Claim C3 witness: an endpoint answering 500 forever, and one answering 500
then 200 (success on attempt 2). -/
theorem C3_retry_loop_witness :
    ((∀ i, isFailStatus ((fun _ : Nat => AttemptOutcome.httpResponse 500 "err") i) = true)
      ∧ (1 ≤ 2) ∧ (2 ≤ 3)
      ∧ (∀ i, i < 2 - 1 →
          is2xxOutcome ((fun j : Nat => if j = 0 then AttemptOutcome.httpResponse 500 "err"
            else AttemptOutcome.httpResponse 200 "ok") i) = false)
      ∧ (is2xxOutcome ((fun j : Nat => if j = 0 then AttemptOutcome.httpResponse 500 "err"
            else AttemptOutcome.httpResponse 200 "ok") (2 - 1)) = true))
    ∧ (((sendWebhookWithRetries (fun _ : Nat => AttemptOutcome.httpResponse 500 "err") 0
          (mkWebhookEvent 1 "job.completed" "j1" [])).attemptCount = 3
        ∧ (sendWebhookWithRetries (fun _ : Nat => AttemptOutcome.httpResponse 500 "err") 0
          (mkWebhookEvent 1 "job.completed" "j1" [])).delivered = false
        ∧ (sendWebhookWithRetries (fun _ : Nat => AttemptOutcome.httpResponse 500 "err") 0
          (mkWebhookEvent 1 "job.completed" "j1" [])).nextRetryAt = some (0 + 3600))
      ∧ ((sendWebhookWithRetries (fun j : Nat => if j = 0 then AttemptOutcome.httpResponse 500 "err"
            else AttemptOutcome.httpResponse 200 "ok") 0
          (mkWebhookEvent 1 "job.completed" "j1" [])).attemptCount = 2
        ∧ (sendWebhookWithRetries (fun j : Nat => if j = 0 then AttemptOutcome.httpResponse 500 "err"
            else AttemptOutcome.httpResponse 200 "ok") 0
          (mkWebhookEvent 1 "job.completed" "j1" [])).delivered = true
        ∧ (sendWebhookWithRetries (fun j : Nat => if j = 0 then AttemptOutcome.httpResponse 500 "err"
            else AttemptOutcome.httpResponse 200 "ok") 0
          (mkWebhookEvent 1 "job.completed" "j1" [])).nextRetryAt = none)) :=
  ⟨⟨fun _ => rfl, by decide, by decide,
    fun i hi => by
      have h0 : i = 0 := Nat.lt_one_iff.mp hi
      subst h0
      rfl,
    rfl⟩,
   C3_retry_loop (fun _ : Nat => AttemptOutcome.httpResponse 500 "err")
     (fun j : Nat => if j = 0 then AttemptOutcome.httpResponse 500 "err"
       else AttemptOutcome.httpResponse 200 "ok")
     0 0 1 "job.completed" "j1" [] 2
     (fun _ => rfl) (by decide) (by decide)
     (fun i hi => by
       have h0 : i = 0 := Nat.lt_one_iff.mp hi
       subst h0
       rfl)
     rfl⟩

/-! ## Claim C4: one delivery record per matching subscription -/

/-- Claim C4's matching predicate, following the claim's words: the
subscription is active, not soft-deleted, owned by the dispatching user, and
its event set contains the event kind. -/
def matchingSubscription (user eventType : String) (w : Webhook) : Bool :=
  w.isActive && !w.deleted && w.clerkUserID == user && w.events.any (fun e => e == eventType)

/-- The two-stage filter of SendWebhookEvent equals the claim's single
matching predicate. -/
lemma subscribed_eq_matching (db : List Webhook) (user eventType : String) :
    subscribedWebhooks (findActiveWebhooks db user) eventType =
      db.filter (matchingSubscription user eventType) := by
  unfold subscribedWebhooks findActiveWebhooks
  rw [List.filter_filter]
  apply List.filter_congr
  intro w _
  cases hA : w.isActive <;> cases hD : w.deleted <;>
    cases hU : (w.clerkUserID == user) <;>
    cases hE : (w.events.any (fun e => e == eventType)) <;>
    simp [matchingSubscription, hA, hD, hU, hE]

/-- Claim C4: dispatching an event creates exactly one delivery record per
subscription that is active, not soft-deleted, owned by the user and
subscribed to the event kind — the records correspond one-to-one, in order,
to the matching subscriptions — hence none when nothing matches, and every
record's subscription is one of the matching (so never inactive or
soft-deleted) ones. -/
theorem C4_dispatch_records (db : List Webhook) (user eventType jobID : String)
    (payload : List Nat) :
    ((sendWebhookEvent db user eventType jobID payload).map (fun r => r.webhookID) =
      (db.filter (matchingSubscription user eventType)).map (fun w => w.id))
    ∧ ((sendWebhookEvent db user eventType jobID payload).length =
      (db.filter (matchingSubscription user eventType)).length)
    ∧ ((sendWebhookEvent db user eventType jobID payload).isEmpty =
      (db.filter (matchingSubscription user eventType)).isEmpty)
    ∧ ((sendWebhookEvent db user eventType jobID payload).all
        (fun r => (db.filter (matchingSubscription user eventType)).any
          (fun w => w.id == r.webhookID)) = true) := by
  refine ⟨?_, ?_, ?_, ?_⟩
  · simp [sendWebhookEvent, subscribed_eq_matching, List.map_map, mkWebhookEvent,
      Function.comp]
  · simp [sendWebhookEvent, subscribed_eq_matching]
  · cases h : db.filter (matchingSubscription user eventType) with
    | nil => simp [sendWebhookEvent, subscribed_eq_matching, h]
    | cons a l => simp [sendWebhookEvent, subscribed_eq_matching, h]
  · rw [List.all_eq_true]
    intro r hr
    rw [sendWebhookEvent, subscribed_eq_matching] at hr
    simp only [List.mem_map] at hr
    obtain ⟨w, hw, rfl⟩ := hr
    rw [List.any_eq_true]
    exact ⟨w, hw, by simp [mkWebhookEvent]⟩

/-! ## Claim C5: the delivery signature header -/

set_option maxRecDepth 400000 in
/-- Claim C5: every attempt's request carries the payload bytes unchanged as
its body; the signature header is attached exactly when a secret is
configured, and then its value is "sha256=" followed by the lowercase hex
HMAC-SHA256 of those same payload bytes keyed by the secret; the signature
function is that hex HMAC; and at a concrete pair of payloads differing in a
single byte ("payload-a" against "payload-b" under secret "s3cr3t") the two
signatures differ. -/
theorem C5_signature_header (w : Webhook) (ev : WebhookEventRec) (payloadBytes : List Nat) :
    ((buildWebhookRequest w ev payloadBytes).body = payloadBytes)
    ∧ (headerValue (buildWebhookRequest w ev payloadBytes) "X-Webhook-Signature" =
        (if w.secret = [] then none
         else some ("sha256=" ++ hexOfBytes (hmacSha256 w.secret payloadBytes))))
    ∧ (generateHMACSignature payloadBytes w.secret =
        hexOfBytes (hmacSha256 w.secret payloadBytes))
    ∧ (generateHMACSignature (strBytes "payload-a") (strBytes "s3cr3t") ≠
        generateHMACSignature (strBytes "payload-b") (strBytes "s3cr3t")) := by
  refine ⟨rfl, ?_, rfl, by decide⟩
  by_cases h : w.secret = []
  · simp only [buildWebhookRequest, if_pos h]
    rfl
  · simp only [buildWebhookRequest, if_neg h]
    rfl

/-! ## Claim C7: the rate-limit key fingerprint -/

/-- Each serialized digest word is four bytes below 256. -/
lemma wordBytes_lt (x : Nat) : ∀ b ∈ wordBytes x, b < 256 := by
  intro b hb
  simp only [wordBytes, List.mem_cons, List.not_mem_nil, or_false] at hb
  rcases hb with rfl | rfl | rfl | rfl <;> exact Nat.mod_lt _ (by norm_num)

/-- Every digest byte is below 256. -/
lemma digestBytes_lt (s : Hash8) : ∀ b ∈ digestBytes s, b < 256 := by
  intro b hb
  simp only [digestBytes, List.mem_append] at hb
  rcases hb with ((((((h | h) | h) | h) | h) | h) | h) | h <;> exact wordBytes_lt _ b h

/-- Every SHA-256 output byte is below 256, for any message. -/
lemma sha256_lt (m : List Nat) : ∀ b ∈ sha256 m, b < 256 :=
  digestBytes_lt _

/-- The digest always has 32 bytes, for any final state. -/
lemma digestBytes_length (s : Hash8) : (digestBytes s).length = 32 := by
  simp [digestBytes, wordBytes]

/-- SHA-256 always produces 32 bytes, for any message. -/
lemma sha256_length (m : List Nat) : (sha256 m).length = 32 :=
  digestBytes_length _

/-- Hex encoding yields two characters per byte. -/
lemma hexChars_length (l : List Nat) : (hexChars l).length = 2 * l.length := by
  induction l with
  | nil => rfl
  | cons b rest ih => simp [hexChars, ih]; omega

/-- Taking 2k hex characters is hex-encoding the first k bytes. -/
lemma hexChars_take : ∀ (l : List Nat) (k : Nat),
    (hexChars l).take (2 * k) = hexChars (l.take k)
  | [], _ => by simp [hexChars]
  | _ :: _, 0 => by simp [hexChars]
  | b :: rest, k + 1 => by
      have h2 : 2 * (k + 1) = 2 * k + 1 + 1 := by ring
      simp only [hexChars, h2, List.take_succ_cons]
      rw [hexChars_take rest k]

/-- Lists of 32 bytes that agree, modulo 256, on their first 8 positions have
equal 8-element front segments. -/
lemma take8_eq_of_mod_eq {d1 d2 : List Nat} (hl1 : d1.length = 32) (hl2 : d2.length = 32)
    (hb1 : ∀ b ∈ d1, b < 256) (hb2 : ∀ b ∈ d2, b < 256)
    (h : ∀ i : Fin 8, d1.getD i 0 % 256 = d2.getD i 0 % 256) :
    d1.take 8 = d2.take 8 := by
  apply List.ext_getElem
  · rw [List.length_take, List.length_take, hl1, hl2]
  · intro i hi1 hi2
    have hi8 : i < 8 := by
      rw [List.length_take, hl1] at hi1
      omega
    have hig1 : i < d1.length := by omega
    have hig2 : i < d2.length := by omega
    have hf : d1.getD i 0 % 256 = d2.getD i 0 % 256 := h ⟨i, hi8⟩
    rw [List.getD_eq_getElem d1 0 hig1, List.getD_eq_getElem d2 0 hig2,
      Nat.mod_eq_of_lt (hb1 _ (List.getElem_mem hig1)),
      Nat.mod_eq_of_lt (hb2 _ (List.getElem_mem hig2))] at hf
    rw [List.getElem_take, List.getElem_take]
    exact hf

/-- The class of an endpoint under scope "user" and identifier "u1": the first
8 digest bytes (reduced mod 256, which changes nothing), as a member of a
finite type.  The generated key is a function of this class. -/
def fp8 (e : String) : Fin 8 → Fin 256 :=
  fun i => ⟨(sha256 (strBytes ("user" ++ ":" ++ "u1" ++ ":" ++ e))).getD i 0 % 256,
    Nat.mod_lt _ (by norm_num)⟩

/-- Two endpoints in the same `fp8` class generate the same rate-limit key:
the key keeps only the first 16 hex characters, i.e. the first 8 digest
bytes. -/
lemma key_eq_of_fp8_eq {e1 e2 : String} (h : fp8 e1 = fp8 e2) :
    GenerateRateLimitKey "user" "u1" e1 = GenerateRateLimitKey "user" "u1" e2 := by
  have htake : (sha256 (strBytes ("user" ++ ":" ++ "u1" ++ ":" ++ e1))).take 8 =
      (sha256 (strBytes ("user" ++ ":" ++ "u1" ++ ":" ++ e2))).take 8 := by
    refine take8_eq_of_mod_eq (sha256_length _) (sha256_length _)
      (sha256_lt _) (sha256_lt _) ?_
    intro i
    exact congrArg Fin.val (congrFun h i)
  have hhex : (hexChars (sha256 (strBytes ("user" ++ ":" ++ "u1" ++ ":" ++ e1)))).take 16 =
      (hexChars (sha256 (strBytes ("user" ++ ":" ++ "u1" ++ ":" ++ e2)))).take 16 := by
    have h16 : (16 : Nat) = 2 * 8 := by norm_num
    rw [h16, hexChars_take, hexChars_take, htake]
  have hkey : ∀ e : String, GenerateRateLimitKey "user" "u1" e =
      "rate_limit:" ++ "user" ++ ":" ++
        String.mk ((hexChars (sha256 (strBytes ("user" ++ ":" ++ "u1" ++ ":" ++ e)))).take 16) :=
    fun _ => rfl
  rw [hkey e1, hkey e2, hhex]

/-- Nat embeds into String, so String is infinite. -/
lemma string_infinite : Infinite String := by
  refine Infinite.of_injective (fun n : Nat => String.mk (List.replicate n 'a')) ?_
  intro m n hmn
  have := congrArg (fun s : String => s.data.length) hmn
  simpa using this

/-- Claim C7 counterexample: the generated key for scope "user" does not have
the shape user:<fingerprint> (it carries the "rate_limit:" name-space first),
and, because only 16 hex characters of the digest survive, distinct endpoints
with equal keys exist (pigeonhole over the finitely many truncated digests),
so different endpoints can collide. -/
theorem C7_counterexample :
    (("user:".data.isPrefixOf (GenerateRateLimitKey "user" "u1" "/execute").data) = false)
    ∧ (∃ e1 e2 : String, e1 ≠ e2 ∧
        GenerateRateLimitKey "user" "u1" e1 = GenerateRateLimitKey "user" "u1" e2) := by
  constructor
  · decide
  · have : Infinite String := string_infinite
    obtain ⟨e1, e2, hne, heq⟩ := Finite.exists_ne_map_eq_of_infinite fp8
    exact ⟨e1, e2, hne, key_eq_of_fp8_eq heq⟩

/-- Claim C7 (amended): the fingerprint concatenates scope, identifier and
endpoint with ":", hashes with SHA-256, keeps the first 16 hex characters of
the digest, and prefixes scope and the "rate_limit" name-space, so keys have
the shape rate_limit:<scope>:<fingerprint>; the key length is the scope
length plus 28 regardless of identifier and endpoint (bounded output), the
function is deterministic (it is a pure function of its three arguments), and
the three scope helpers produce the user/api/global forms.  Distinct
endpoints may collide in principle, as only 16 hex characters of the digest
are kept. -/
theorem C7_key_shape_amended (scope ident e : String) :
    (("rate_limit:" ++ scope ++ ":").data.isPrefixOf
        (GenerateRateLimitKey scope ident e).data = true)
    ∧ ((GenerateRateLimitKey scope ident e).length = scope.length + 28)
    ∧ (GetUserRateLimitKey ident e = GenerateRateLimitKey "user" ident e)
    ∧ (GetAPIKeyRateLimitKey ident e = GenerateRateLimitKey "api" ident e)
    ∧ (GetGlobalRateLimitKey e = GenerateRateLimitKey "global" "all" e) := by
  have hkey : GenerateRateLimitKey scope ident e =
      ("rate_limit:" ++ scope ++ ":") ++
        String.mk ((hexChars (sha256 (strBytes (scope ++ ":" ++ ident ++ ":" ++ e)))).take 16) :=
    rfl
  have hlen16 : ((hexChars (sha256 (strBytes (scope ++ ":" ++ ident ++ ":" ++ e)))).take 16).length = 16 := by
    rw [List.length_take, hexChars_length, sha256_length]
    omega
  refine ⟨?_, ?_, rfl, rfl, rfl⟩
  · rw [List.isPrefixOf_iff_prefix, hkey, String.data_append]
    exact List.prefix_append _ _
  · rw [hkey, String.length_append, String.length_append, String.length_append]
    have h1 : ("rate_limit:" : String).length = 11 := by decide
    have h2 : (":" : String).length = 1 := by decide
    have h3 : (String.mk ((hexChars (sha256 (strBytes (scope ++ ":" ++ ident ++ ":" ++ e)))).take 16)).length = 16 := hlen16
    omega

end Ignis
